import Mathlib

/-!
Shallow embedding of the example circuits of the MyHDL tutorial notebooks
(src/fsm/fsm.py and src/ram/block_ram_party.py).

Sequential blocks decorated with seq_logic(clk_i.posedge) are modelled as
step functions on explicit state records; one application of a step function
corresponds to one rising clock edge.  Inside one edge every read sees the
pre-edge signal values and every assignment takes effect only after the edge,
matching the simulator's update semantics for registered logic, so several
blocks firing on the same edge are merged into one step function that reads
only the old state.  A Bus of width w is modelled as a Nat reduced modulo
2 ^ w wherever the source can overflow it, and a Wire as a Bool.
-/

/-! ## Button debouncer (fsm.py lines 203-238) -/

/-- The registered signals of the debouncer: the down counter dbcnt,
the stored previous button value, and the registered output. -/
structure DebouncerState where
  debounce_cnt : Nat
  prev_button : Bool
  button_o : Bool
  deriving DecidableEq, Repr

/-- Width of the debounce counter bus: int(ceil(log2(debounce_time+1))),
fsm.py line 215. -/
def debouncer_width (debounce_time : Nat) : Nat :=
  Nat.clog 2 (debounce_time + 1)

/-- One rising clock edge of the debouncer (the two seq_logic blocks
next_state_logic and output_logic of fsm.py lines 218-238, which both fire
on the same edge and read the pre-edge values).  Storing debounce_time into
the counter bus truncates it to the bus width. -/
def debouncer_step (debounce_time : Nat) (s : DebouncerState) (button_i : Bool) :
    DebouncerState where
  debounce_cnt :=
    if button_i = s.prev_button then
      if s.debounce_cnt ≠ 0 then s.debounce_cnt - 1 else s.debounce_cnt
    else
      debounce_time % 2 ^ debouncer_width debounce_time
  prev_button := button_i
  button_o := if s.debounce_cnt = 0 then s.prev_button else s.button_o

/-- Power-up state: MyHDL signals initialize to 0. -/
def debouncer_init : DebouncerState :=
  { debounce_cnt := 0, prev_button := false, button_o := false }

/-- The debouncer state after the first k rising clock edges, where bs j is
the value of button_i sampled at edge j. -/
def debouncer_run (debounce_time : Nat) (bs : Nat → Bool) : Nat → DebouncerState
  | 0 => debouncer_init
  | k + 1 => debouncer_step debounce_time (debouncer_run debounce_time bs k) (bs k)

/-! ## Plain counter (fsm.py lines 56-70) -/

/-- next_state_logic of counter (fsm.py lines 63-65): cnt.next = cnt + 1 on a
width-wide bus.  The block has no data inputs beyond the clock. -/
def counter_step (width : Nat) (cnt : Nat) (_input : Unit) : Nat :=
  (cnt + 1) % 2 ^ width

/-! ## Counter with enable and reset (fsm.py lines 97-123) -/

/-- next_state_logic of counter_en_rst (fsm.py lines 104-112).  The body of
the block tests the module-level wires rst and en of the enclosing script
scope (fsm.py lines 120-121), not the parameters rst_i and en_i, which are
therefore unused here exactly as in the source. -/
def counter_en_rst_next (rst en : Bool) (rst_i en_i : Bool) (width cnt : Nat) : Nat :=
  if rst then 0
  else if en then (cnt + 1) % 2 ^ width
  else cnt

/-- The counter value after k rising clock edges, where rst/en are the
enclosing-scope wires sampled at each edge and rst_i/en_i are the signals
bound to the parameters. -/
def counter_en_rst_run (width : Nat) (rst en rst_i en_i : Nat → Bool) : Nat → Nat
  | 0 => 0
  | k + 1 =>
      counter_en_rst_next (rst k) (en k) (rst_i k) (en_i k) width
        (counter_en_rst_run width rst en rst_i en_i k)

/-! ## Classic ring FSM, first version (fsm.py lines 323-391) -/

/-- The four named states of State('A', 'B', 'C', 'D'). -/
inductive SState
  | A
  | B
  | C
  | D
  deriving DecidableEq, Repr, Fintype

/-- Registered state of classic_fsm: the two-bit reset counter and the
state variable. -/
structure ClassicFsmState where
  reset_cnt : Nat
  fsm_state : SState
  deriving DecidableEq, Repr

/-- next_state_logic of the first classic_fsm (fsm.py lines 341-376).
reset_cnt is a Bus(2), so reset_cnt.max = 2 ^ 2 and arithmetic on it is
modulo 2 ^ 2.  inputs_i is a two-bit bus read via its bits 0 and 1. -/
def classic_fsm_next (s : ClassicFsmState) (inputs_i : Nat) : ClassicFsmState :=
  if s.reset_cnt < 2 ^ 2 - 1 then
    { reset_cnt := (s.reset_cnt + 1) % 2 ^ 2, fsm_state := SState.A }
  else if s.fsm_state = SState.A then
    if inputs_i.testBit 0 then { s with fsm_state := SState.B }
    else if inputs_i.testBit 1 then { s with fsm_state := SState.D }
    else s
  else if s.fsm_state = SState.B then
    if inputs_i.testBit 0 then { s with fsm_state := SState.C }
    else if inputs_i.testBit 1 then { s with fsm_state := SState.A }
    else s
  else if s.fsm_state = SState.C then
    if inputs_i.testBit 0 then { s with fsm_state := SState.D }
    else if inputs_i.testBit 1 then { s with fsm_state := SState.B }
    else s
  else if s.fsm_state = SState.D then
    if inputs_i.testBit 0 then { s with fsm_state := SState.A }
    else if inputs_i.testBit 1 then { s with fsm_state := SState.C }
    else s
  else
    { s with fsm_state := SState.A }

/-- output_logic of classic_fsm (fsm.py lines 378-391): a combinational
function of the state variable alone. -/
def classic_fsm_outputs (fsm_state : SState) : Nat :=
  if fsm_state = SState.A then 0b0001
  else if fsm_state = SState.B then 0b0010
  else if fsm_state = SState.C then 0b0100
  else if fsm_state = SState.D then 0b1000
  else 0b1111

/-- The combinational value on outputs_o as a function of the stored state
and the current inputs.  The output_logic block of classic_fsm reads only
fsm_state (fsm.py lines 378-391); the inputs_i argument is unused exactly
as in the source, where inputs_i is in scope but never read by this block. -/
def classic_fsm_outputs_with_inputs (fsm_state : SState) (inputs_i : Nat) : Nat :=
  classic_fsm_outputs fsm_state

/-- The classic_fsm registered state after k rising clock edges.  Signals
power up at 0: reset_cnt = 0 and the state variable at its first declared
value A. -/
def classic_fsm_run (inputs : Nat → Nat) : Nat → ClassicFsmState
  | 0 => { reset_cnt := 0, fsm_state := SState.A }
  | k + 1 => classic_fsm_next (classic_fsm_run inputs k) (inputs k)

/-! ## RAM variants (block_ram_party.py) -/

/-- Registered state of a RAM chunk: the word array and the registered
output bus. -/
structure RamState where
  mem : List Nat
  data_o : Nat
  deriving DecidableEq, Repr

/-- The initial word array: 2 ^ len(addr_i) words, each a Bus initialized
to 0 (block_ram_party.py line 65). -/
def ram_init (addr_width : Nat) : List Nat :=
  List.replicate (2 ^ addr_width) 0

/-- logic of the first ram, with enable (block_ram_party.py lines 48-79).
A write stores data_i truncated to the data bus width. -/
def ram_en_step (data_width : Nat) (s : RamState) (en_i wr_i : Bool)
    (addr_i data_i : Nat) : RamState :=
  if en_i then
    if wr_i then { s with mem := s.mem.set addr_i (data_i % 2 ^ data_width) }
    else { s with data_o := s.mem.getD addr_i 0 }
  else s

/-- logic of the second ram, without enable (block_ram_party.py
lines 189-208). -/
def ram_step (data_width : Nat) (s : RamState) (wr_i : Bool)
    (addr_i data_i : Nat) : RamState :=
  if wr_i then { s with mem := s.mem.set addr_i (data_i % 2 ^ data_width) }
  else { s with data_o := s.mem.getD addr_i 0 }

/-- logic of simpler_ram (block_ram_party.py lines 222-242): the addressed
word is always read out; the read sees the pre-edge memory contents. -/
def simpler_ram_step (data_width : Nat) (s : RamState) (wr_i : Bool)
    (addr_i data_i : Nat) : RamState :=
  { mem := if wr_i then s.mem.set addr_i (data_i % 2 ^ data_width) else s.mem,
    data_o := s.mem.getD addr_i 0 }

/-- logic of dualport_ram (block_ram_party.py lines 257-276): write through
wr_addr_i, read from rd_addr_i. -/
def dualport_ram_step (data_width : Nat) (s : RamState) (wr_i : Bool)
    (wr_addr_i rd_addr_i data_i : Nat) : RamState :=
  { mem := if wr_i then s.mem.set wr_addr_i (data_i % 2 ^ data_width) else s.mem,
    data_o := s.mem.getD rd_addr_i 0 }

/-- The shape of a RAM array: 2 ^ addr_width words, each below
2 ^ data_width. -/
def ram_shape_ok (addr_width data_width : Nat) (mem : List Nat) : Prop :=
  mem.length = 2 ^ addr_width ∧ ∀ w ∈ mem, w < 2 ^ data_width

/-! ## Record/playback controller (block_ram_party.py lines 494-582) -/

/-- Controller state encodings (block_ram_party.py lines 523-528). -/
def INIT : Nat := 0

def WAITING_TO_RECORD : Nat := 1

def RECORDING : Nat := 2

def WAITING_TO_PLAY : Nat := 3

def PLAYING : Nat := 4

/-- The registered signals of record_play: the RAM instance (mem, data_o),
and the controller registers wr, addr, end_addr, data_i, leds_o, state. -/
structure RecordPlayState where
  mem : List Nat
  data_o : Nat
  wr : Bool
  addr : Nat
  end_addr : Nat
  data_i : Nat
  leds_o : Nat
  state : Nat
  deriving DecidableEq, Repr

/-- concat(1, b, b, b, b): the five-bit value with bit 4 set and the four
low bits all equal to b (block_ram_party.py lines 561 and 575). -/
def concat_1_bbbb (b : Bool) : Nat :=
  if b then 0b11111 else 0b10000

/-- The fsm seq_logic block of record_play (block_ram_party.py
lines 531-582), which updates wr, addr, end_addr, data_i, leds_o and state.
All reads see the pre-edge values; addr and end_addr are Bus(11), data_i is
Bus(1). -/
def record_play_fsm (s : RecordPlayState) (reset do_sample button_a button_b : Bool) :
    RecordPlayState :=
  let s0 := { s with wr := false }
  if reset then
    { s0 with state := INIT }
  else if do_sample then
    if s.state = INIT then
      let s1 := { s0 with leds_o := 0b10101 }
      if button_a then { s1 with state := WAITING_TO_RECORD } else s1
    else if s.state = WAITING_TO_RECORD then
      let s1 := { s0 with leds_o := 0b11010 }
      if button_a = false then
        { s1 with addr := 0, data_i := if button_b then 1 else 0, wr := true,
                  state := RECORDING }
      else s1
    else if s.state = RECORDING then
      let s1 := { s0 with addr := (s.addr + 1) % 2 ^ 11,
                          data_i := if button_b then 1 else 0, wr := true,
                          leds_o := concat_1_bbbb button_b }
      if button_a then
        { s1 with end_addr := (s.addr + 1) % 2 ^ 11, state := WAITING_TO_PLAY }
      else s1
    else if s.state = WAITING_TO_PLAY then
      let s1 := { s0 with leds_o := 0b10000 }
      if button_a = false then { s1 with addr := 0, state := PLAYING } else s1
    else if s.state = PLAYING then
      let s1 := { s0 with leds_o := concat_1_bbbb (s.data_o.testBit 0),
                          addr := if s.addr = s.end_addr then 0
                                  else (s.addr + 1) % 2 ^ 11 }
      if button_a then { s1 with state := WAITING_TO_RECORD } else s1
    else s0
  else s0

/-- One rising clock edge of the whole record_play chunk: the fsm block and
the instantiated ram (block_ram_party.py line 520, the second ram with a
one-bit data bus) fire on the same edge; the ram reads the pre-edge wr,
addr and data_i signals. -/
def record_play_step (s : RecordPlayState) (reset do_sample button_a button_b : Bool) :
    RecordPlayState :=
  let f := record_play_fsm s reset do_sample button_a button_b
  let r := ram_step 1 { mem := s.mem, data_o := s.data_o } s.wr s.addr s.data_i
  { f with mem := r.mem, data_o := r.data_o }

/-! ## Static instantiation structure of the example circuits -/

/-- The chunk-decorated circuit functions defined across the two notebooks,
in order of definition.  classic_fsm is defined three times in fsm.py (the
plain, edge-detecting, and debounced versions) and ram twice in
block_ram_party.py (with and without the enable input); later definitions
shadow earlier ones, so record_play's call to ram refers to the second,
enable-free ram. -/
inductive Circuit
  | counter
  | counter_en_rst
  | debouncer
  | classic_fsm
  | classic_fsm_edge
  | classic_fsm_debounced
  | ram_en
  | ram
  | simpler_ram
  | dualport_ram
  | gen_reset
  | sample_en
  | record_play
  deriving DecidableEq, BEq, Repr

/-- Which example circuit's body instantiates which other example circuit,
transcribed from the chunk bodies: the debounced classic_fsm instantiates
debouncer twice (fsm.py lines 601-602), and record_play instantiates
gen_reset (block_ram_party.py line 508), sample_en (line 512) and ram
(line 520).  No other chunk body calls another chunk. -/
def instantiates : Circuit → Circuit → Bool
  | Circuit.classic_fsm_debounced, Circuit.debouncer => true
  | Circuit.record_play, Circuit.gen_reset => true
  | Circuit.record_play, Circuit.sample_en => true
  | Circuit.record_play, Circuit.ram => true
  | _, _ => false

/-- The cross-instantiation pairs that actually occur in the sources. -/
def cross_instantiations : List (Circuit × Circuit) :=
  [(Circuit.classic_fsm_debounced, Circuit.debouncer),
   (Circuit.record_play, Circuit.gen_reset),
   (Circuit.record_play, Circuit.sample_en),
   (Circuit.record_play, Circuit.ram)]

/-! ## Pin-constraint files -/

/-- The literal text written to classic_fsm.pcf (fsm.py lines 558-569). -/
def classic_fsm_pcf : String :=
  "\nset_io clk_i 21\nset_io outputs_o[0] 99\nset_io outputs_o[1] 98\nset_io outputs_o[2] 97\nset_io outputs_o[3] 96\nset_io inputs_i[0] 118\nset_io inputs_i[1] 114\n"

/-- The literal text written to classic_fsm.pcf the second time, after the
debounced FSM (fsm.py lines 660-671). -/
def classic_fsm_pcf_debounced : String :=
  "\nset_io clk_i 21\nset_io outputs_o[0] 99\nset_io outputs_o[1] 98\nset_io outputs_o[2] 97\nset_io outputs_o[3] 96\nset_io inputs_i[0] 118\nset_io inputs_i[1] 114\n"

/-- The literal text written to record_play.pcf (block_ram_party.py
lines 594-606). -/
def record_play_pcf : String :=
  "\nset_io clk_i 21\nset_io leds_o[0] 99\nset_io leds_o[1] 98\nset_io leds_o[2] 97\nset_io leds_o[3] 96\nset_io leds_o[4] 95\nset_io button_a 118\nset_io button_b 114\n"

/-- One set_io line of a pin-constraint file, mapping a port to a pin. -/
def pcf_line (port : String) (pin : Nat) : String :=
  "set_io " ++ port ++ " " ++ toString pin ++ "\n"

/-- A pin-constraint file as the claim describes it: a leading newline
followed by one set_io line per port assignment. -/
def pcf_file (assignments : List (String × Nat)) : String :=
  assignments.foldl (fun acc a => acc ++ pcf_line a.1 a.2) "\n"

/-- The port-to-pin assignments the claim lists for classic_fsm.pcf. -/
def classic_fsm_pcf_assignments : List (String × Nat) :=
  [("clk_i", 21), ("outputs_o[0]", 99), ("outputs_o[1]", 98), ("outputs_o[2]", 97),
   ("outputs_o[3]", 96), ("inputs_i[0]", 118), ("inputs_i[1]", 114)]

/-- The port-to-pin assignments the claim lists for record_play.pcf. -/
def record_play_pcf_assignments : List (String × Nat) :=
  [("clk_i", 21), ("leds_o[0]", 99), ("leds_o[1]", 98), ("leds_o[2]", 97),
   ("leds_o[3]", 96), ("leds_o[4]", 95), ("button_a", 118), ("button_b", 114)]

/-! ## Clock-edge sensitivity of the sequential blocks -/

/-- A signal edge a sequential block can be sensitive to. -/
inductive SignalEdge
  | posedge
  | negedge
  deriving DecidableEq, Repr

/-- Every seq_logic block defined across the two notebooks. -/
inductive SeqBlock
  | counter_next_state_logic
  | counter_en_rst_next_state_logic
  | debouncer_next_state_logic
  | debouncer_output_logic
  | classic_fsm_next_state_logic
  | classic_fsm_edge_next_state_logic
  | classic_fsm_debounced_next_state_logic
  | ram_en_logic
  | ram_logic
  | simpler_ram_logic
  | dualport_ram_logic
  | gen_reset_logic
  | sample_en_counter
  | record_play_fsm_block
  deriving DecidableEq, Repr

/-- The sensitivity of each sequential block, transcribed from its
seq_logic decorator: every one of them is declared on clk_i.posedge
(fsm.py lines 63, 104, 218, 233, 341, 461, 609; block_ram_party.py
lines 68, 203, 237, 272, 456, 486, 531). -/
def seq_block_trigger : SeqBlock → SignalEdge
  | SeqBlock.counter_next_state_logic => SignalEdge.posedge
  | SeqBlock.counter_en_rst_next_state_logic => SignalEdge.posedge
  | SeqBlock.debouncer_next_state_logic => SignalEdge.posedge
  | SeqBlock.debouncer_output_logic => SignalEdge.posedge
  | SeqBlock.classic_fsm_next_state_logic => SignalEdge.posedge
  | SeqBlock.classic_fsm_edge_next_state_logic => SignalEdge.posedge
  | SeqBlock.classic_fsm_debounced_next_state_logic => SignalEdge.posedge
  | SeqBlock.ram_en_logic => SignalEdge.posedge
  | SeqBlock.ram_logic => SignalEdge.posedge
  | SeqBlock.simpler_ram_logic => SignalEdge.posedge
  | SeqBlock.dualport_ram_logic => SignalEdge.posedge
  | SeqBlock.gen_reset_logic => SignalEdge.posedge
  | SeqBlock.sample_en_counter => SignalEdge.posedge
  | SeqBlock.record_play_fsm_block => SignalEdge.posedge

/-- Whether an edge of the given polarity occurs on the clock waveform
between simulation instants t and t+1. -/
def edge_fires (e : SignalEdge) (clk : Nat → Bool) (t : Nat) : Bool :=
  match e with
  | SignalEdge.posedge => !clk t && clk (t + 1)
  | SignalEdge.negedge => clk t && !clk (t + 1)

/-- The registered state of a sequential block over a clock waveform: the
block's update function runs exactly when its sensitivity edge occurs, and
the state is held otherwise. -/
def clocked_trace {S I : Type} (e : SignalEdge) (clk : Nat → Bool)
    (step : S → I → S) (init : S) (inp : Nat → I) : Nat → S
  | 0 => init
  | t + 1 =>
      if edge_fires e clk t then
        step (clocked_trace e clk step init inp t) (inp t)
      else
        clocked_trace e clk step init inp t

/-! ## print_stats (block_ram_party.py lines 13-18) -/

/-- The grep method applied to the captured log: both patterns used by
print_stats are start-anchored literals, so grep keeps the lines starting
with the literal. -/
def grep (log : List String) (pat : String) : List String :=
  log.filter fun line => pat.isPrefixOf line

/-- print_stats (block_ram_party.py lines 13-18), with the fallible
indexing steps made explicit: stat_start_line[0] and stat_end_line[0] raise
IndexError on an empty grep result, and yosys_log.index raises ValueError
when the element is absent; each is modelled as Option with none for the
uncaught exception.  The slice yosys_log[start_index+2 : end_index-1] uses
the Python rule that a -1 upper bound (arising only when end_index = 0)
means the last element. -/
def print_stats (yosys_log : List String) : Option String := do
  let stat_start_line := grep yosys_log "2.27. "
  let stat_end_line := grep yosys_log "2.28. "
  let first_start ← stat_start_line.head?
  let first_end ← stat_end_line.head?
  let start_index ← yosys_log.findIdx? fun line => line == first_start
  let end_index ← yosys_log.findIdx? fun line => line == first_end
  let stop := if end_index = 0 then yosys_log.length - 1 else end_index - 1
  return String.intercalate "\n" ((yosys_log.take stop).drop (start_index + 2))

/-! ## Helper lemmas -/

theorem debounce_time_lt_pow (dt : Nat) : dt < 2 ^ debouncer_width dt :=
  lt_of_lt_of_le (Nat.lt_succ_self dt) (Nat.le_pow_clog (by norm_num) (dt + 1))

theorem debounce_time_mod_width (dt : Nat) :
    dt % 2 ^ debouncer_width dt = dt :=
  Nat.mod_eq_of_lt (debounce_time_lt_pow dt)

theorem debouncer_step_inv (dt : Nat) (bs : Nat → Bool) (k : Nat) (c : Nat) (p o : Bool)
    (hc : c ≤ dt)
    (hinv : (c = 0 ∧ p = false ∧ o = false ∧ ∀ j, j < k → bs j = false) ∨
            (dt - c ≤ k ∧ ∀ j, k - (dt - c) ≤ j → j < k → bs j = p)) :
    (debouncer_step dt ⟨c, p, o⟩ (bs k)).debounce_cnt ≤ dt ∧
    (((debouncer_step dt ⟨c, p, o⟩ (bs k)).debounce_cnt = 0 ∧
      (debouncer_step dt ⟨c, p, o⟩ (bs k)).prev_button = false ∧
      (debouncer_step dt ⟨c, p, o⟩ (bs k)).button_o = false ∧
      ∀ j, j < k + 1 → bs j = false) ∨
     (dt - (debouncer_step dt ⟨c, p, o⟩ (bs k)).debounce_cnt ≤ k + 1 ∧
      ∀ j, k + 1 - (dt - (debouncer_step dt ⟨c, p, o⟩ (bs k)).debounce_cnt) ≤ j →
        j < k + 1 → bs j = (debouncer_step dt ⟨c, p, o⟩ (bs k)).prev_button)) := by
  have hprev : (debouncer_step dt ⟨c, p, o⟩ (bs k)).prev_button = bs k := rfl
  by_cases hb : bs k = p
  · by_cases h0 : c = 0
    · have hcnt : (debouncer_step dt ⟨c, p, o⟩ (bs k)).debounce_cnt = 0 := by
        simp [debouncer_step, hb, h0]
      rcases hinv with ⟨-, hp, ho, hall⟩ | ⟨hle, hwin⟩
      · refine ⟨by omega, Or.inl ⟨hcnt, ?_, ?_, ?_⟩⟩
        · rw [hprev, hb, hp]
        · show (if c = 0 then p else o) = false
          simp [h0, hp]
        · intro j hj
          rcases Nat.lt_succ_iff_lt_or_eq.mp hj with h | h
          · exact hall j h
          · rw [h, hb, hp]
      · refine ⟨by omega, Or.inr ⟨by rw [hcnt]; omega, ?_⟩⟩
        intro j hj1 hj2
        rw [hprev, hb]
        rw [hcnt] at hj1
        rcases Nat.lt_succ_iff_lt_or_eq.mp hj2 with h | h
        · exact hwin j (by omega) h
        · rw [h, hb]
    · have hcnt : (debouncer_step dt ⟨c, p, o⟩ (bs k)).debounce_cnt = c - 1 := by
        simp [debouncer_step, hb, h0]
      rcases hinv with ⟨h0', -⟩ | ⟨hle, hwin⟩
      · exact absurd h0' h0
      · refine ⟨by omega, Or.inr ⟨by rw [hcnt]; omega, ?_⟩⟩
        intro j hj1 hj2
        rw [hprev, hb]
        rw [hcnt] at hj1
        rcases Nat.lt_succ_iff_lt_or_eq.mp hj2 with h | h
        · exact hwin j (by omega) h
        · rw [h, hb]
  · have hcnt : (debouncer_step dt ⟨c, p, o⟩ (bs k)).debounce_cnt = dt := by
      simp [debouncer_step, hb, debounce_time_mod_width]
    refine ⟨by omega, Or.inr ⟨by rw [hcnt]; omega, ?_⟩⟩
    intro j hj1 hj2
    rw [hcnt] at hj1
    exact absurd hj2 (by omega)

theorem debouncer_run_inv (dt : Nat) (bs : Nat → Bool) (k : Nat) :
    (debouncer_run dt bs k).debounce_cnt ≤ dt ∧
    (((debouncer_run dt bs k).debounce_cnt = 0 ∧
      (debouncer_run dt bs k).prev_button = false ∧
      (debouncer_run dt bs k).button_o = false ∧
      ∀ j, j < k → bs j = false) ∨
     (dt - (debouncer_run dt bs k).debounce_cnt ≤ k ∧
      ∀ j, k - (dt - (debouncer_run dt bs k).debounce_cnt) ≤ j → j < k →
        bs j = (debouncer_run dt bs k).prev_button)) := by
  induction k with
  | zero =>
      exact ⟨Nat.zero_le _,
        Or.inl ⟨rfl, rfl, rfl, fun j hj => absurd hj (Nat.not_lt_zero j)⟩⟩
  | succ k ih =>
      obtain ⟨hc, hinv⟩ := ih
      exact debouncer_step_inv dt bs k (debouncer_run dt bs k).debounce_cnt
        (debouncer_run dt bs k).prev_button (debouncer_run dt bs k).button_o hc hinv

/-! ## Claim theorems -/

/-- C1: for every clock-by-clock input sequence fed to the debouncer with a
positive debounce_time, the registered output button_o does not change
value on a rising clock edge unless button_i has held one stable value for
at least debounce_time consecutive preceding clock cycles; in particular an
input pulse shorter than debounce_time cycles cannot move button_o. -/
theorem debouncer_stable_before_output_change (dt : Nat) (bs : Nat → Bool) (k : Nat)
    (hdt : 0 < dt)
    (hchg : (debouncer_run dt bs (k + 1)).button_o ≠ (debouncer_run dt bs k).button_o) :
    dt ≤ k ∧ ∃ v : Bool, ∀ j, k - dt ≤ j → j < k → bs j = v := by
  obtain ⟨hc, hinv⟩ := debouncer_run_inv dt bs k
  have hbo : (debouncer_run dt bs (k + 1)).button_o =
      if (debouncer_run dt bs k).debounce_cnt = 0 then
        (debouncer_run dt bs k).prev_button
      else (debouncer_run dt bs k).button_o := rfl
  by_cases h0 : (debouncer_run dt bs k).debounce_cnt = 0
  · rcases hinv with ⟨-, hp, ho, -⟩ | ⟨hle, hwin⟩
    · rw [hbo] at hchg
      simp [h0, hp, ho] at hchg
    · refine ⟨by omega, ⟨(debouncer_run dt bs k).prev_button, ?_⟩⟩
      intro j hj1 hj2
      exact hwin j (by omega) hj2
  · rw [hbo] at hchg
    simp [h0] at hchg

theorem debouncer_stable_before_output_change_witness :
    0 < 1 ∧
    (debouncer_run 1 (fun _ => true) 3).button_o ≠
      (debouncer_run 1 (fun _ => true) 2).button_o ∧
    (1 ≤ 2 ∧ ∃ v : Bool, ∀ j, 2 - 1 ≤ j → j < 2 → (fun _ => true) j = v) := by
  have h2 : debouncer_run 1 (fun _ => true) 2 = ⟨0, true, false⟩ := by
    simp [debouncer_run, debouncer_step, debouncer_init, debounce_time_mod_width]
  have h3 : debouncer_run 1 (fun _ => true) 3 = ⟨0, true, true⟩ := by
    simp [debouncer_run, debouncer_step, debouncer_init, debounce_time_mod_width]
  have hchg : (debouncer_run 1 (fun _ => true) 3).button_o ≠
      (debouncer_run 1 (fun _ => true) 2).button_o := by
    rw [h2, h3]
    decide
  exact ⟨by decide, hchg,
    debouncer_stable_before_output_change 1 (fun _ => true) 2 (by decide) hchg⟩

/-- C2: the sequential update of counter_en_rst reads the module-level
wires rst and en of the enclosing script scope, never its rst_i and en_i
parameters: two runs that agree on the clock (same number of rising edges)
and on the enclosing-scope wires produce identical counter values whatever
signals are bound to the rst_i and en_i arguments. -/
theorem counter_en_rst_reads_enclosing_wires (width : Nat)
    (rst en rst_i en_i rst_i' en_i' : Nat → Bool) (k : Nat) :
    counter_en_rst_run width rst en rst_i en_i k =
      counter_en_rst_run width rst en rst_i' en_i' k := by
  induction k with
  | zero => rfl
  | succ k ih => simp [counter_en_rst_run, counter_en_rst_next, ih]

/-- C4: in the first classic_fsm, once the reset counter has reached its
maximum value 3 (the value at which reset_cnt < reset_cnt.max - 1 stops
holding), a forward step (inputs_i = 0b01) followed by a backward step
(inputs_i = 0b10) returns every state to itself, and likewise a backward
step followed by a forward step. -/
theorem classic_fsm_fwd_bck_identity :
    ∀ s : SState,
      classic_fsm_next (classic_fsm_next ⟨3, s⟩ 0b01) 0b10 =
        (⟨3, s⟩ : ClassicFsmState) ∧
      classic_fsm_next (classic_fsm_next ⟨3, s⟩ 0b10) 0b01 =
        (⟨3, s⟩ : ClassicFsmState) := by
  intro s
  cases s <;> exact ⟨rfl, rfl⟩

/-- C3 counterexample: the example circuits do compose.  The debounced
classic_fsm is defined by instantiating the debouncer example, and
record_play is defined by instantiating the ram example, refuting the claim
that no example circuit is defined by instantiating another. -/
theorem example_circuits_do_compose :
    instantiates Circuit.classic_fsm_debounced Circuit.debouncer = true ∧
    instantiates Circuit.record_play Circuit.ram = true ∧
    instantiates Circuit.record_play Circuit.gen_reset = true ∧
    instantiates Circuit.record_play Circuit.sample_en = true :=
  ⟨rfl, rfl, rfl, rfl⟩

/-- C3 amended: most example circuits are self-contained, but the final
(debounced) classic FSM is defined by instantiating the debouncer, and the
record/playback controller by instantiating gen_reset, sample_en and ram;
these four pairs are exactly the cross-instantiations, and in particular no
other example circuit instantiates another. -/
theorem cross_instantiations_exactly :
    ∀ c d : Circuit, instantiates c d = cross_instantiations.contains (c, d) := by
  intro c d
  cases c <;> cases d <;> rfl

/-- C5 counterexample: the instantaneous value produced by classic_fsm's
output logic is independent of the current inputs_i: over all four states
(so in particular every reachable one) and all four values of the two-bit
inputs_i bus, there is no state with two input values yielding different
outputs on outputs_o, refuting the claimed input dependence. -/
theorem classic_fsm_output_ignores_inputs :
    decide (∃ (s : SState) (i : Fin 4) (j : Fin 4),
      classic_fsm_outputs_with_inputs s i.val ≠
        classic_fsm_outputs_with_inputs s j.val) = false := by
  decide

/-- C5 amended: classic_fsm is a sequential circuit in the Moore style:
outputs_o is determined by the stored fsm_state alone (any two values of
inputs_i yield the same instantaneous output), and the current inputs_i
affect outputs_o only through the next-state logic: from the reachable
post-reset state (reached after three clock edges with idle inputs),
inputs_i = 0b01 drives the output to 0b0010 at the next edge while
inputs_i = 0b00 leaves it at 0b0001. -/
theorem classic_fsm_moore_machine :
    (∀ (s : SState) (i j : Nat),
      classic_fsm_outputs_with_inputs s i = classic_fsm_outputs_with_inputs s j) ∧
    classic_fsm_run (fun _ => 0) 3 = ⟨3, SState.A⟩ ∧
    classic_fsm_outputs (classic_fsm_next ⟨3, SState.A⟩ 0b01).fsm_state = 0b0010 ∧
    classic_fsm_outputs (classic_fsm_next ⟨3, SState.A⟩ 0b00).fsm_state = 0b0001 :=
  ⟨fun _ _ _ => rfl, by decide, by decide, by decide⟩

/-- C8: the pin-constraint files are fixed literal text: both writes of
classic_fsm.pcf consist of exactly the assignments clk_i to 21,
outputs_o[0..3] to 99, 98, 97, 96 and inputs_i[0], inputs_i[1] to 118, 114,
and record_play.pcf of exactly clk_i to 21, leds_o[0..4] to 99, 98, 97, 96,
95 and button_a, button_b to 118, 114. -/
theorem pcf_files_verbatim :
    classic_fsm_pcf = pcf_file classic_fsm_pcf_assignments ∧
    classic_fsm_pcf_debounced = classic_fsm_pcf ∧
    record_play_pcf = pcf_file record_play_pcf_assignments :=
  ⟨rfl, rfl, rfl⟩

/-- C10: print_stats contains no error handling of its own: when the grep
for the stats header comes back empty, the failure of indexing its first
element propagates directly (the modelled IndexError surfaces as none) and
nothing in the function recovers from it. -/
theorem print_stats_propagates (yosys_log : List String)
    (h : grep yosys_log "2.27. " = []) :
    print_stats yosys_log = none := by
  simp [print_stats, h]

theorem print_stats_propagates_witness :
    grep ["foo"] "2.27. " = [] ∧ print_stats ["foo"] = none :=
  ⟨by decide, print_stats_propagates ["foo"] (by decide)⟩

/-- C6: every RAM variant keeps the shape of its word array invariant: the
array is allocated with exactly 2 ^ len(addr_i) words (ram, simpler_ram;
2 ^ len(wr_addr_i) for dualport_ram), all words stay below
2 ^ len(data_i), no read or write changes the number of words, and every
written value is stored reduced modulo 2 ^ len(data_i). -/
theorem ram_shape_invariant (aw dw : Nat) (mem : List Nat) (d_o : Nat)
    (en_i wr_i : Bool) (addr_i rd_addr_i data_i : Nat)
    (hshape : ram_shape_ok aw dw mem) (haddr : addr_i < 2 ^ aw) :
    ram_shape_ok aw dw (ram_init aw) ∧
    ram_shape_ok aw dw (ram_en_step dw ⟨mem, d_o⟩ en_i wr_i addr_i data_i).mem ∧
    ram_shape_ok aw dw (ram_step dw ⟨mem, d_o⟩ wr_i addr_i data_i).mem ∧
    ram_shape_ok aw dw (simpler_ram_step dw ⟨mem, d_o⟩ wr_i addr_i data_i).mem ∧
    ram_shape_ok aw dw
      (dualport_ram_step dw ⟨mem, d_o⟩ wr_i addr_i rd_addr_i data_i).mem ∧
    (ram_en_step dw ⟨mem, d_o⟩ true true addr_i data_i).mem.getD addr_i 0 =
      data_i % 2 ^ dw ∧
    (ram_step dw ⟨mem, d_o⟩ true addr_i data_i).mem.getD addr_i 0 =
      data_i % 2 ^ dw ∧
    (simpler_ram_step dw ⟨mem, d_o⟩ true addr_i data_i).mem.getD addr_i 0 =
      data_i % 2 ^ dw ∧
    (dualport_ram_step dw ⟨mem, d_o⟩ true addr_i rd_addr_i data_i).mem.getD addr_i 0 =
      data_i % 2 ^ dw := by
  obtain ⟨hlen, hwords⟩ := hshape
  have horig : ram_shape_ok aw dw mem := ⟨hlen, hwords⟩
  have haddr' : addr_i < mem.length := by rw [hlen]; exact haddr
  have hmemset : ram_shape_ok aw dw (mem.set addr_i (data_i % 2 ^ dw)) := by
    constructor
    · rw [List.length_set, hlen]
    · intro w hw
      rcases List.mem_or_eq_of_mem_set hw with hmem | heq
      · exact hwords w hmem
      · rw [heq]
        exact Nat.mod_lt _ (by positivity)
  have hget : (mem.set addr_i (data_i % 2 ^ dw)).getD addr_i 0 = data_i % 2 ^ dw := by
    simp [List.getD_eq_getElem?_getD, List.getElem?_set_self',
      List.getElem?_eq_getElem haddr']
  have hinit : ram_shape_ok aw dw (ram_init aw) := by
    constructor
    · simp [ram_init]
    · intro w hw
      rw [List.eq_of_mem_replicate hw]
      positivity
  refine ⟨hinit, ?_, ?_, ?_, ?_, ?_, ?_, ?_, ?_⟩
  · cases en_i <;> cases wr_i <;> simp [ram_en_step] <;>
      first | exact horig | exact hmemset
  · cases wr_i <;> simp [ram_step] <;> first | exact horig | exact hmemset
  · cases wr_i <;> simp [simpler_ram_step] <;> first | exact horig | exact hmemset
  · cases wr_i <;> simp [dualport_ram_step] <;> first | exact horig | exact hmemset
  · simpa [ram_en_step] using hget
  · simpa [ram_step] using hget
  · simpa [simpler_ram_step] using hget
  · simpa [dualport_ram_step] using hget

theorem ram_shape_invariant_witness :
    (ram_init 1).length = 2 ^ 1 ∧
    (ram_step 1 ⟨[0, 1], 0⟩ true 1 5).mem.getD 1 0 = 5 % 2 ^ 1 := by
  have h := ram_shape_invariant 1 1 [0, 1] 0 true true 1 0 5 ⟨rfl, by decide⟩
    (by decide)
  exact ⟨h.1.1, h.2.2.2.2.2.2.1⟩

/-- C7: on every clock edge of record_play the controller drives the RAM
write-enable wr to 0 by default and asserts it exactly when leaving
WAITING_TO_RECORD for RECORDING (a sample pulse with button_a released and
no reset) or while in the RECORDING state (a sample pulse with no reset);
hence wr stays 0 whenever the controller is in INIT, WAITING_TO_PLAY or
PLAYING, and an edge at which the registered wr signal is low leaves the
RAM words untouched, so the recorded contents are unchanged throughout
playback. -/
theorem record_play_wr_discipline (s : RecordPlayState)
    (reset do_sample button_a button_b : Bool) :
    ((record_play_step s reset do_sample button_a button_b).wr =
      (!reset && do_sample &&
        ((s.state == WAITING_TO_RECORD && !button_a) || s.state == RECORDING))) ∧
    (s.wr = false →
      (record_play_step s reset do_sample button_a button_b).mem = s.mem) := by
  constructor
  · cases reset <;> cases do_sample <;> cases button_a <;>
      simp [record_play_step, record_play_fsm, ram_step, INIT, WAITING_TO_RECORD,
        RECORDING, WAITING_TO_PLAY, PLAYING] <;>
      split_ifs <;> simp_all
  · intro hwr
    simp [record_play_step, ram_step, hwr]

theorem record_play_wr_discipline_witness :
    (record_play_step (RecordPlayState.mk [0, 0] 0 false 0 0 0 0 1)
        false true false true).wr = true ∧
    (record_play_step (RecordPlayState.mk [0, 0] 0 false 0 0 0 0 1)
        false true false true).mem = [0, 0] := by
  have h := record_play_wr_discipline (RecordPlayState.mk [0, 0] 0 false 0 0 0 0 1)
    false true false true
  constructor
  · rw [h.1]
    decide
  · exact h.2 rfl

/-- C9: every sequential block defined across the two notebooks is declared
sensitive to clk_i.posedge, and registered state evolves only at rising
clock edges: at any simulation instant with no rising edge on the clock
(in particular on falling edges and between edges) the stored state of the
counter, the debouncer and the ram is unchanged. -/
theorem seq_blocks_posedge_only (clk : Nat → Bool) (t width dt dw : Nat)
    (bs : Nat → Bool) (ram_in : Nat → Bool × Bool × Nat × Nat) (r0 : RamState)
    (h : ¬ (clk t = false ∧ clk (t + 1) = true)) :
    (∀ b : SeqBlock, seq_block_trigger b = SignalEdge.posedge) ∧
    clocked_trace (seq_block_trigger SeqBlock.counter_next_state_logic) clk
        (counter_step width) 0 (fun _ => ()) (t + 1) =
      clocked_trace (seq_block_trigger SeqBlock.counter_next_state_logic) clk
        (counter_step width) 0 (fun _ => ()) t ∧
    clocked_trace (seq_block_trigger SeqBlock.debouncer_next_state_logic) clk
        (debouncer_step dt) debouncer_init bs (t + 1) =
      clocked_trace (seq_block_trigger SeqBlock.debouncer_next_state_logic) clk
        (debouncer_step dt) debouncer_init bs t ∧
    clocked_trace (seq_block_trigger SeqBlock.ram_en_logic) clk
        (fun s i => ram_en_step dw s i.1 i.2.1 i.2.2.1 i.2.2.2) r0 ram_in (t + 1) =
      clocked_trace (seq_block_trigger SeqBlock.ram_en_logic) clk
        (fun s i => ram_en_step dw s i.1 i.2.1 i.2.2.1 i.2.2.2) r0 ram_in t := by
  have hfire : edge_fires SignalEdge.posedge clk t = false := by
    cases h1 : clk t <;> cases h2 : clk (t + 1) <;> simp [edge_fires, h1, h2]
    exact h ⟨h1, h2⟩
  refine ⟨?_, ?_, ?_, ?_⟩
  · intro b
    cases b <;> rfl
  · simp [clocked_trace, seq_block_trigger, hfire]
  · simp [clocked_trace, seq_block_trigger, hfire]
  · simp [clocked_trace, seq_block_trigger, hfire]

theorem seq_blocks_posedge_only_witness :
    clocked_trace (seq_block_trigger SeqBlock.counter_next_state_logic)
        (fun _ => true) (counter_step 1) 0 (fun _ => ()) 1 =
      clocked_trace (seq_block_trigger SeqBlock.counter_next_state_logic)
        (fun _ => true) (counter_step 1) 0 (fun _ => ()) 0 :=
  (seq_blocks_posedge_only (fun _ => true) 0 1 1 1 (fun _ => false)
      (fun _ => (false, false, 0, 0)) ⟨[0, 0], 0⟩ (by decide)).2.1
